import Mathlib

/-!
# Verification of the ScanVault Scan Orchestration Engine

A shallow embedding, in Lean 4, of the scan-orchestration core of the
ScanVault repository:

* `ScanOrchestrator.deduplicateResults`, `ScanOrchestrator.resolveTargetPath`
  and `ScanOrchestrator.startScan` from `backend/src/services/scanOrchestrator.js`;
* `WSL2Bridge.executeCommand`, `WSL2Bridge.runSemgrep` / `runTrivy`,
  `WSL2Bridge.parseSemgrepOutput`, `WSL2Bridge.parseTrivyOutput` and
  `WSL2Bridge.mapSemgrepSeverity` from `backend/src/services/wsl2Bridge.js`;
* the session bookkeeping of the scan route (`routes/scan.js`), which marks a
  session `completed` when the orchestrator's promise resolves and `failed`
  when it rejects.

JavaScript objects are modelled as structures carrying the fields the verified
components read (fields such as timing metadata that no verified code path
inspects are omitted).  Mutation of a canonical record through a shared
reference (as done by `deduplicateResults` via its `seen` map) is modelled by
carrying the accumulated `tool` string in an association list and applying it
to the kept records at the end.  Filesystem checks (`fs.existsSync`,
`fs.statSync(...).isDirectory()`), the platform path predicate
(`path.isAbsolute`) and the outcome of spawning an external tool are
parameters of an explicit environment, so every theorem quantifies over the
behaviours the process can actually observe.
-/

/-- One normalized security finding, as produced by a bridge parser or a mock
generator (`scanOrchestrator.js`).  Carries the fields read by the verified
code paths: the dedup key fields `file`/`line`/`type`, the `tool` field
rewritten by deduplication, and `id`/`severity` set by the parsers. -/
structure Finding where
  id : String
  tool : String
  severity : String
  type : String
  file : String
  line : Nat
deriving DecidableEq, Repr

/-- `listIsPrefix needle hay` : is `needle` a prefix of `hay`? (Char-list
building block for JavaScript's `String.prototype.includes`.) -/
def listIsPrefix : List Char → List Char → Bool
  | [], _ => true
  | _ :: _, [] => false
  | a :: as, b :: bs => a == b && listIsPrefix as bs

/-- `listIncludes hay needle` : does `needle` occur as a contiguous
sub-sequence of `hay`? -/
def listIncludes : List Char → List Char → Bool
  | [], needle => needle.isEmpty
  | h :: t, needle => listIsPrefix needle (h :: t) || listIncludes t needle

/-- JavaScript `s.includes(sub)`: substring containment (true for the empty
substring). -/
def strIncludes (s sub : String) : Bool :=
  listIncludes s.toList sub.toList

/-- The dedup key of `deduplicateResults`:
`` `${result.file}:${result.line}:${result.type}` ``. -/
def dedupKey (f : Finding) : String :=
  f.file ++ ":" ++ toString f.line ++ ":" ++ f.type

/-- The `tool`-field merge performed on a duplicate
(`scanOrchestrator.js` lines 463-466): if the canonical record's `tool`
string does not already contain the duplicate's `tool` value, extend it
comma-joined. -/
def mergeToolStr (t tool : String) : String :=
  if strIncludes t tool then t else t ++ ", " ++ tool

/-- Merge a duplicate's tool into the first association-list entry with the
given key; models `existing.tool = ...` mutation through the `seen` map. -/
def updateTool : List (String × String) → String → String → List (String × String)
  | [], _, _ => []
  | (k, t) :: rest, key, tool =>
      if k == key then (k, mergeToolStr t tool) :: rest
      else (k, t) :: updateTool rest key tool

/-- The single pass of `deduplicateResults`: walk the raw results, keeping the
first occurrence of each key (the `filter` callback returning `true`) and
folding later duplicates' tools into the `seen` entry for their key (the
callback returning `false` after mutating the canonical record). -/
def dedupPass : List Finding → List (String × String) → List Finding →
    (List (String × String) × List Finding)
  | [], seen, kept => (seen, kept)
  | f :: rest, seen, kept =>
      let key := dedupKey f
      if (seen.lookup key).isSome then
        dedupPass rest (updateTool seen key f.tool) kept
      else
        dedupPass rest (seen ++ [(key, f.tool)]) (kept ++ [f])

/-- `ScanOrchestrator.deduplicateResults` (lines 454-473).  The JavaScript
`filter` keeps the canonical records by reference while later duplicates
mutate their `tool` field through the `seen` map; here the final `tool`
string for each kept record is read back from the final `seen` state. -/
def deduplicateResults (results : List Finding) : List Finding :=
  let p := dedupPass results [] []
  p.2.map (fun f => { f with tool := (p.1.lookup (dedupKey f)).getD f.tool })

/-- The canonical-record merge as the spec describes it: append (comma-joined)
a dropped finding's tool when it is not already present in the canonical
record's `tool` field. -/
def extendTool (c d : Finding) : Finding :=
  { c with tool := mergeToolStr c.tool d.tool }

/-- The deduplication function as §4.4 of the spec words it, with the key the
code actually uses (the string `file:line:type`): the first finding with each
key is kept as the canonical record, its `tool` field extended by each later
finding with the same key, and output order is the order of first-seen keys. -/
def dedupeSpec (l : List Finding) : List Finding :=
  dedupeSpecGo l []
where
  /-- `dedupeSpecGo l seenKeys` processes `l`, skipping findings whose key was
  already seen and emitting, for each first-seen key, the first finding merged
  with all later same-key findings. -/
  dedupeSpecGo : List Finding → List String → List Finding
    | [], _ => []
    | f :: rest, seenKeys =>
        if seenKeys.contains (dedupKey f) then dedupeSpecGo rest seenKeys
        else
          ((rest.filter (fun g => dedupKey g == dedupKey f)).foldl extendTool f)
            :: dedupeSpecGo rest (dedupKey f :: seenKeys)

/-- The dedup key as claim C2 words it: the `(file, line, category)` triple
(the spec's `category` is the source's `type` field). -/
def tripleKey (f : Finding) : String × Nat × String :=
  (f.file, f.line, f.type)

/-- The deduplication function exactly as claim C2 states it: canonical
records are the first findings with each `(file, line, category)` **triple**,
later findings with the same triple are dropped into the canonical record's
`tool` field, and output order is first appearance of triples. -/
def dedupeByTriple (l : List Finding) : List Finding :=
  dedupeByTripleGo l []
where
  dedupeByTripleGo : List Finding → List (String × Nat × String) → List Finding
    | [], _ => []
    | f :: rest, seenKeys =>
        if seenKeys.contains (tripleKey f) then dedupeByTripleGo rest seenKeys
        else
          ((rest.filter (fun g => tripleKey g == tripleKey f)).foldl extendTool f)
            :: dedupeByTripleGo rest (tripleKey f :: seenKeys)

/-- A finding whose encoded dedup key collides with `exFindingB`'s although
their `(file, line, category)` triples differ: both encode to `"a:1:2:t"`. -/
def exFindingA : Finding :=
  { id := "idA", tool := "ToolA", severity := "HIGH", type := "2:t",
    file := "a", line := 1 }

/-- See `exFindingA`: same encoded key `"a:1:2:t"`, different triple. -/
def exFindingB : Finding :=
  { id := "idB", tool := "ToolB", severity := "LOW", type := "t",
    file := "a:1", line := 2 }

/-! ## Target resolution (`ScanOrchestrator.resolveTargetPath`) -/

/-- A hexadecimal digit, as matched by `[0-9a-f]` with the `i` flag. -/
def isHexDigit (c : Char) : Bool :=
  ('0' ≤ c && c ≤ '9') || ('a' ≤ c && c ≤ 'f') || ('A' ≤ c && c ≤ 'F')

/-- The UUID test of `resolveTargetPath` (line 500):
`/^[0-9a-f]{8}-[0-9a-f]{4}-[0-9a-f]{4}-[0-9a-f]{4}-[0-9a-f]{12}$/i`
— 36 characters, dashes at positions 8, 13, 18 and 23, hex digits elsewhere. -/
def isUuid (s : String) : Bool :=
  let cs := s.toList
  cs.length == 36 &&
    (List.range 36).all (fun i =>
      if i == 8 || i == 13 || i == 18 || i == 23 then cs.getD i ' ' == '-'
      else isHexDigit (cs.getD i ' '))

/-- `path.join(dir, name)`, modelled as separator-joining (the verified
properties never depend on `..`-normalisation). -/
def pathJoin (dir name : String) : String :=
  dir ++ "/" ++ name

/-- The outcome of one tool run as the orchestrator's per-tool `try` block
observes it: either the awaited findings (plus whatever intra-tool progress
events the mock generators pushed through `sendProgress` during the run), or
a thrown error's message. -/
inductive RunResult where
  | ok (findings : List Finding) (intra : List (String × Nat))
  | err (msg : String)
deriving DecidableEq, Repr

/-- Everything `startScan` and `resolveTargetPath` observe from outside the
orchestrator: the `folderRegistry` mappings, the staging root (`TEMP_DIR`),
the process working directory, the platform's `path.isAbsolute`, the
filesystem checks `fs.existsSync` and `fs.statSync(...).isDirectory()`, and
the outcome of dispatching each known tool
(`runSemgrepWithRealTime` / `runTrivyWithRealTime` / `runODCWithRealTime`). -/
structure Env where
  registry : List (String × String)
  tempDir : String
  cwd : String
  isAbs : String → Bool
  pathExists : String → Bool
  dirAt : String → Bool
  runTool : String → RunResult

/-- `path.resolve(p)`: `p` itself when absolute, otherwise joined to the
process working directory. -/
def pathResolve (env : Env) (p : String) : String :=
  if env.isAbs p then p else pathJoin env.cwd p

/-- `ScanOrchestrator.resolveTargetPath` (lines 480-546): registered direct
scans first, then absolute paths, then UUID-shaped staging identifiers, then
relative paths containing a separator (resolved against the working
directory), and finally separator-free names probed in the staging root, then
locally, defaulting to the staging path. -/
def resolveTargetPath (env : Env) (targetId : String) : String :=
  match env.registry.lookup targetId with
  | some directPath => directPath
  | none =>
      if env.isAbs targetId then targetId
      else if isUuid targetId then pathJoin env.tempDir targetId
      else if strIncludes targetId "/" || strIncludes targetId "\\" then
        pathResolve env targetId
      else
        let tempPath := pathJoin env.tempDir targetId
        let localPath := pathResolve env targetId
        if env.pathExists tempPath then tempPath
        else if env.pathExists localPath then localPath
        else tempPath

/-- Target resolution exactly as claim C5 states it: (1) registered direct
scans, (2) absolute paths, (3) UUID-shaped identifiers joined to the staging
root, and (4) **any** other identifier checked against the staging root first
and only then resolved relative to the working directory. -/
def resolveTargetPathClaim (env : Env) (targetId : String) : String :=
  match env.registry.lookup targetId with
  | some directPath => directPath
  | none =>
      if env.isAbs targetId then targetId
      else if isUuid targetId then pathJoin env.tempDir targetId
      else
        let tempPath := pathJoin env.tempDir targetId
        if env.pathExists tempPath then tempPath
        else pathResolve env targetId

/-! ## The scan session (`ScanOrchestrator.startScan` and `routes/scan.js`) -/

/-- The session-fatal error of §7: target resolution/validation failure.
`startScan` raises it as a thrown `Error` before any tool runs; the scan
route's `.catch` turns it into the `failed` session status. -/
inductive ScanError where
  | invalidTarget (msg : String)
deriving DecidableEq, Repr

/-- One entry of `startScan`'s `toolResults` bookkeeping: either
`{tool, resultCount}` on the success path or `{tool, error}` in the per-tool
`catch` block (execution timing omitted). -/
inductive ToolNote where
  | ok (tool : String) (resultCount : Nat)
  | err (tool : String) (msg : String)
deriving DecidableEq, Repr

/-- The tools `startScan`'s `switch` dispatches; any other name falls to the
`default` branch, which only logs a warning. -/
def knownTools : List String :=
  ["Semgrep", "Trivy", "OWASP Dependency Check"]

/-- The wire progress percentage: `Math.round((completed / total) * 100)`
for naturals `completed ≤ total` (equals `⌊(200·completed + total) / (2·total)⌋`). -/
def roundPct (completed total : Nat) : Nat :=
  (200 * completed + total) / (2 * total)

/-- Mutable state of `startScan`'s tool loop: the `completedTools` counter,
the accumulated raw `this.results`, the `toolResults` notes, every progress
event `sendProgress` has emitted so far (message and rounded percent), and
the tools whose bridge dispatch was invoked. -/
structure LoopState where
  completed : Nat
  results : List Finding
  notes : List ToolNote
  events : List (String × Nat)
  ran : List String
deriving Repr

/-- The `for (const tool of selectedTools)` loop of `startScan`
(lines 168-246): emit the starting event at `completed/total·100`; dispatch
known tools and catch their failures (recording an error note and an error
event at the unchanged percentage, then continuing); treat unknown tools as
completing with no findings; on completion bump `completedTools` and emit the
updated percentage. -/
def scanLoop (env : Env) (total : Nat) : List String → LoopState → LoopState
  | [], st => st
  | tool :: rest, st =>
      let p := roundPct st.completed total
      let ev0 := st.events ++ [("Starting " ++ tool ++ " scan...", p)]
      if knownTools.contains tool then
        match env.runTool tool with
        | .ok fs intra =>
            scanLoop env total rest
              { completed := st.completed + 1
                results := st.results ++ fs
                notes := st.notes ++ [.ok tool fs.length]
                events := ev0 ++ intra ++
                  [("Completed " ++ tool ++ " scan", roundPct (st.completed + 1) total)]
                ran := st.ran ++ [tool] }
        | .err m =>
            scanLoop env total rest
              { completed := st.completed
                results := st.results
                notes := st.notes ++ [.err tool m]
                events := ev0 ++ [("Error in " ++ tool ++ ": " ++ m, p)]
                ran := st.ran ++ [tool] }
      else
        scanLoop env total rest
          { completed := st.completed + 1
            results := st.results
            notes := st.notes ++ [.ok tool 0]
            events := ev0 ++
              [("Completed " ++ tool ++ " scan", roundPct (st.completed + 1) total)]
            ran := st.ran }

/-- Everything observable about one `startScan` call: the progress events it
emitted, the promise outcome (resolved deduplicated findings, or the thrown
session-fatal error), the per-tool notes, and which tools were dispatched. -/
structure ScanOutcome where
  events : List (String × Nat)
  result : Except ScanError (List Finding)
  toolNotes : List ToolNote
  ranTools : List String
deriving Repr

/-- `ScanOrchestrator.startScan` (lines 53-287): emit the two initialisation
events (0% and 5%), resolve the target, fail with `InvalidTarget` before any
tool runs when the resolved path does not exist or is not a directory
(re-emitting the current 5% in the catch block), otherwise run the tool loop,
emit the final 100% event and resolve with the deduplicated findings. -/
def startScan (env : Env) (targetId : String) (tools : List String) : ScanOutcome :=
  let tp := resolveTargetPath env targetId
  let ev1 : List (String × Nat) :=
    [("Initializing scan...", 0), ("Resolved target path: " ++ tp, 5)]
  if env.pathExists tp = false then
    { events := ev1 ++ [("Scan failed: Target path does not exist: " ++ tp, 5)]
      result := .error (.invalidTarget ("Target path does not exist: " ++ tp))
      toolNotes := []
      ranTools := [] }
  else if env.dirAt tp = false then
    { events := ev1 ++ [("Scan failed: Target path is not a directory: " ++ tp, 5)]
      result := .error (.invalidTarget ("Target path is not a directory: " ++ tp))
      toolNotes := []
      ranTools := [] }
  else
    let st := scanLoop env tools.length tools
      { completed := 0, results := [], notes := [], events := ev1, ran := [] }
    { events := st.events ++ [("Scan completed successfully!", 100)]
      result := .ok (deduplicateResults st.results)
      toolNotes := st.notes
      ranTools := st.ran }

/-- The session status written by `routes/scan.js` (lines 341-359): the
`.then` handler stores `completed`, the `.catch` handler stores `failed`. -/
def sessionStatus (r : Except ScanError (List Finding)) : String :=
  match r with
  | .ok _ => "completed"
  | .error _ => "failed"

/-- The findings one tool contributes to the session accumulator: a known
tool's awaited findings when its run succeeds, nothing when it throws, and
nothing for an unknown tool. -/
def toolFindings (env : Env) (tool : String) : List Finding :=
  if knownTools.contains tool then
    match env.runTool tool with
    | .ok fs _ => fs
    | .err _ => []
  else []

/-- The `toolResults` note one tool leaves behind. -/
def toolNoteOf (env : Env) (tool : String) : ToolNote :=
  if knownTools.contains tool then
    match env.runTool tool with
    | .ok fs _ => .ok tool fs.length
    | .err m => .err tool m
  else .ok tool 0

/-- The progress events the tool loop emits, starting from `completed = c`
(closed form of the `events` component of `scanLoop`). -/
def loopEvents (env : Env) (total : Nat) : Nat → List String → List (String × Nat)
  | _, [] => []
  | c, tool :: rest =>
      let p := roundPct c total
      ("Starting " ++ tool ++ " scan...", p) ::
        (if knownTools.contains tool then
          match env.runTool tool with
          | .ok _ intra =>
              intra ++ ("Completed " ++ tool ++ " scan", roundPct (c + 1) total)
                :: loopEvents env total (c + 1) rest
          | .err m =>
              ("Error in " ++ tool ++ ": " ++ m, p) :: loopEvents env total c rest
        else
          ("Completed " ++ tool ++ " scan", roundPct (c + 1) total)
            :: loopEvents env total (c + 1) rest)

/-! ## Tool execution bridge (`WSL2Bridge.executeCommand`, `runSemgrep`/`runTrivy`) -/

/-- What the spawned subprocess does, as `executeCommand`'s promise observes
it: the timeout timer fires before the process closes (the subprocess ran
longer than `this.timeout`), the `error` event fires (spawn failure), or the
process closes with an exit code and the captured stdout/stderr. -/
inductive ProcOutcome where
  | timeout
  | procError (msg : String)
  | exited (code : Int) (stdout : String) (stderr : String)
deriving DecidableEq, Repr

/-- §7's per-invocation error taxonomy for the rejections `executeCommand`
produces: `executionTimeout` for the timeout rejection (`'Command timed
out'`), `executionFailure` for a non-zero exit with empty stdout, and
`spawnError` for the process `error` event. -/
inductive CmdError where
  | executionTimeout (msg : String)
  | executionFailure (msg : String)
  | spawnError (msg : String)
deriving DecidableEq, Repr

instance {ε α : Type} [DecidableEq ε] [DecidableEq α] : DecidableEq (Except ε α)
  | .error x, .error y =>
      if h : x = y then isTrue (by rw [h])
      else isFalse (fun hh => h (by cases hh; rfl))
  | .error _, .ok _ => isFalse (fun hh => by cases hh)
  | .ok _, .error _ => isFalse (fun hh => by cases hh)
  | .ok x, .ok y =>
      if h : x = y then isTrue (by rw [h])
      else isFalse (fun hh => h (by cases hh; rfl))

/-- The observable outcome of `executeCommand`: the settled promise and
whether the subprocess was forcibly terminated (`process.kill('SIGTERM')`,
done exactly when the timeout fires). -/
structure CmdOutput where
  result : Except CmdError String
  killed : Bool
deriving DecidableEq, Repr

/-- `WSL2Bridge.executeCommand` (lines 164-215): on timeout, kill the process
and reject; on an `error` event, reject; on close, resolve with stdout when
the exit code is 0 **or** stdout is non-empty, and reject only on a non-zero
exit with empty stdout. -/
def executeCommand (outcome : ProcOutcome) : CmdOutput :=
  match outcome with
  | .timeout =>
      { result := .error (.executionTimeout "Command timed out"), killed := true }
  | .procError m => { result := .error (.spawnError m), killed := false }
  | .exited code stdout stderr =>
      if code == 0 then { result := .ok stdout, killed := false }
      else if stdout ≠ "" then { result := .ok stdout, killed := false }
      else
        { result := .error (.executionFailure
            ("Command failed with code " ++ toString code ++ ": " ++ stderr))
          killed := false }

/-- The shared shape of `WSL2Bridge.runSemgrep` / `runTrivy` (lines 90-156)
around `executeCommand`: throw `'WSL2 is not available'` before the `try`
when the availability probe fails; inside the `try`, parse the resolved
stdout, and turn any rejection (timeout, spawn error, execution failure) into
an empty finding list via the `catch` block. -/
def bridgeRun (parse : String → List Finding) (available : Bool)
    (outcome : ProcOutcome) : Except String (List Finding) :=
  if available then
    match (executeCommand outcome).result with
    | .ok out => .ok (parse out)
    | .error _ => .ok []
  else .error "WSL2 is not available"

/-! ## Output parsing and severity normalisation -/

/-- JavaScript `a || b` for a possibly-absent string `a`: `b` when `a` is
`null`/`undefined` or the (falsy) empty string. -/
def jsOr (a : Option String) (b : String) : String :=
  match a with
  | some s => if s = "" then b else s
  | none => b

/-- Split a character list at every occurrence of `c` (JavaScript
`split(c)`). -/
def splitChar (c : Char) : List Char → List (List Char)
  | [] => [[]]
  | a :: as =>
      let r := splitChar c as
      if a == c then [] :: r
      else
        match r with
        | [] => [[a]]
        | g :: gs => (a :: g) :: gs

/-- `result.check_id.split('.').pop()`: the last dot-separated component. -/
def lastDotComponent (s : String) : String :=
  String.mk ((splitChar '.' s.toList).getLastD [])

/-- Strip the WSL mount prefix: `replace(/^\/mnt\/[a-z]\//, '')`. -/
def stripMntPrefix (p : String) : String :=
  match p.toList with
  | '/' :: 'm' :: 'n' :: 't' :: '/' :: d :: '/' :: rest =>
      if 'a' ≤ d && d ≤ 'z' then String.mk rest else p
  | _ => p

/-- The file-path rewrite both parsers apply: strip the WSL mount prefix and
turn every `/` into `\` (`replace(/\//g, '\\')`). -/
def winPath (p : String) : String :=
  String.mk ((stripMntPrefix p).toList.map (fun c => if c == '/' then '\\' else c))

/-- JavaScript `toUpperCase()` on one character (every severity vocabulary
value is ASCII). -/
def charUpper (c : Char) : Char :=
  if 'a' ≤ c && c ≤ 'z' then Char.ofNat (c.toNat - 32) else c

/-- JavaScript `s.toUpperCase()` (ASCII). -/
def strToUpper (s : String) : String :=
  String.mk (s.toList.map charUpper)

/-- The fixed `severityMap` lookup of `mapSemgrepSeverity`, on an
already-uppercased key; an unknown key yields the `|| 'INFO'` default. -/
def severityTable (u : String) : String :=
  if u = "ERROR" then "CRITICAL"
  else if u = "CRITICAL" then "CRITICAL"
  else if u = "WARNING" then "HIGH"
  else if u = "HIGH" then "HIGH"
  else if u = "INFO" then "MEDIUM"
  else if u = "MEDIUM" then "MEDIUM"
  else if u = "INVENTORY" then "LOW"
  else if u = "LOW" then "LOW"
  else if u = "EXPERIMENTAL" then "INFO"
  else "INFO"

/-- `WSL2Bridge.mapSemgrepSeverity` (lines 319-333):
`severityMap[severity.toUpperCase()] || 'INFO'`. -/
def mapSemgrepSeverity (severity : String) : String :=
  severityTable (strToUpper severity)

/-- The Trivy severity computation of `parseTrivyOutput` (line 287):
`vuln.Severity?.toUpperCase() || 'INFO'` — no mapping table, only
uppercasing, with `'INFO'` for an absent or empty native value. -/
def trivySeverity (s : Option String) : String :=
  match s with
  | none => "INFO"
  | some v => if strToUpper v = "" then "INFO" else strToUpper v

/-- One record of Semgrep's `results` array, with the fields
`parseSemgrepOutput` reads (metadata fields no claim depends on are
omitted). -/
structure SemgrepRaw where
  check_id : Option String
  fingerprint : Option String
  severity : Option String
  path : String
  startLine : Option Nat
  category : Option String
deriving DecidableEq, Repr

/-- The decoded Semgrep JSON document: `data.results` may be absent. -/
structure SemgrepData where
  results : Option (List SemgrepRaw)
deriving DecidableEq, Repr

/-- `WSL2Bridge.parseSemgrepOutput` (lines 222-262) after `JSON.parse`
(`none` models a parse failure, which yields an empty list via the `catch`
block).  Every produced severity goes through `mapSemgrepSeverity`, with
`'INFO'` substituted for an absent native severity. -/
def parseSemgrepOutput (data : Option SemgrepData) : List Finding :=
  match data with
  | none => []
  | some d =>
      match d.results with
      | none => []
      | some rs =>
          rs.map (fun r =>
            { id := jsOr r.check_id (jsOr r.fingerprint "")
              tool := "Semgrep"
              severity := mapSemgrepSeverity (jsOr r.severity "INFO")
              type := jsOr r.category
                (jsOr (r.check_id.map lastDotComponent) "Security Issue")
              file := winPath r.path
              line := r.startLine.getD 0 })

/-- One record of a Trivy target's `Vulnerabilities` array, with the fields
`parseTrivyOutput` reads for the modelled `Finding` fields. -/
structure TrivyVuln where
  vulnerabilityID : String
  vulnSeverity : Option String
deriving DecidableEq, Repr

/-- One entry of Trivy's `Results` array: a scanned target and its
vulnerabilities (absent when Trivy reports none). -/
structure TrivyTarget where
  target : String
  vulnerabilities : Option (List TrivyVuln)
deriving DecidableEq, Repr

/-- The decoded Trivy JSON document: `data.Results` may be absent. -/
structure TrivyData where
  results : Option (List TrivyTarget)
deriving DecidableEq, Repr

/-- `WSL2Bridge.parseTrivyOutput` (lines 269-312) after `JSON.parse` (`none`
models a parse failure).  The severity is `trivySeverity`, i.e. the native
value uppercased with no clamping to the canonical set. -/
def parseTrivyOutput (data : Option TrivyData) : List Finding :=
  match data with
  | none => []
  | some d =>
      match d.results with
      | none => []
      | some ts =>
          (ts.map (fun t =>
            match t.vulnerabilities with
            | none => []
            | some vs =>
                vs.map (fun v =>
                  { id := v.vulnerabilityID
                    tool := "Trivy"
                    severity := trivySeverity v.vulnSeverity
                    type := "Vulnerable Dependency"
                    file := winPath t.target
                    line := 0 }))).flatten

/-- The five canonical severity levels of §3. -/
def canonicalSeverities : List String :=
  ["CRITICAL", "HIGH", "MEDIUM", "LOW", "INFO"]

/-- Did the tool run resolve (as opposed to throwing)? -/
def RunResult.isOk : RunResult → Bool
  | .ok _ _ => true
  | .err _ => false

/-- Environment for probing the resolver fallback: an unregistered relative
identifier, a staging root that does contain `a/b`, and a platform where
`path.isAbsolute` rejects every probed identifier (as both POSIX and Windows
do for `"a/b"` and `"/tmp/a/b"`-style checks are never consulted). -/
def exEnvC5 : Env :=
  { registry := []
    tempDir := "/tmp"
    cwd := "/home/app"
    isAbs := fun _ => false
    pathExists := fun p => p == "/tmp/a/b"
    dirAt := fun _ => true
    runTool := fun _ => .ok [] [] }

/-- A sample finding used by the session-level witnesses. -/
def exFindingW : Finding :=
  { id := "w1", tool := "Trivy", severity := "HIGH",
    type := "Vulnerable Dependency", file := "package.json", line := 0 }

/-- Witness environment for claim C1: the Semgrep dispatch throws `"boom"`,
every other known tool resolves with one finding, and the resolved target is
a valid directory. -/
def exEnvC1 : Env :=
  { registry := []
    tempDir := "/tmp"
    cwd := "/app"
    isAbs := fun _ => true
    pathExists := fun _ => true
    dirAt := fun _ => true
    runTool := fun t => if t == "Semgrep" then .err "boom" else .ok [exFindingW] [] }

/-- Counterexample environment for claim C4: a valid target and a single
successful tool run that emits no intra-tool events. -/
def exEnvC4 : Env :=
  { registry := []
    tempDir := "/tmp"
    cwd := "/app"
    isAbs := fun _ => true
    pathExists := fun _ => true
    dirAt := fun _ => true
    runTool := fun _ => .ok [] [] }

/-- Witness environment for claim C6 (the spec's concrete scenario D): no
registered ids and no existing directory anywhere. -/
def exEnvC6 : Env :=
  { registry := []
    tempDir := "/tmp"
    cwd := "/app"
    isAbs := fun _ => false
    pathExists := fun _ => false
    dirAt := fun _ => false
    runTool := fun _ => .ok [] [] }

/-- Witness environment for claim C10: every dispatched tool succeeds with no
findings; the selected list will contain a name outside `knownTools`. -/
def exEnvC10 : Env :=
  { registry := []
    tempDir := "/tmp"
    cwd := "/app"
    isAbs := fun _ => true
    pathExists := fun _ => true
    dirAt := fun _ => true
    runTool := fun _ => .ok [] [] }

/-- A native Trivy severity is harmless for canonicality when it is absent,
empty, or uppercases to one of the five canonical names. -/
def trivySevOkB (v : TrivyVuln) : Bool :=
  match v.vulnSeverity with
  | none => true
  | some s => strToUpper s == "" || canonicalSeverities.contains (strToUpper s)

/-- The targets a decoded Trivy document contributes (empty on a parse
failure or an absent `Results` array). -/
def trivyTargets (data : Option TrivyData) : List TrivyTarget :=
  match data with
  | none => []
  | some d => d.results.getD []

/-- A Trivy document whose sole vulnerability carries the out-of-vocabulary
native severity `"unknown"` (Trivy's own value for unrated CVEs). -/
def exTrivyUnknown : TrivyData :=
  { results := some
      [{ target := "/mnt/c/temp/x"
         vulnerabilities := some
           [{ vulnerabilityID := "CVE-0000-0001", vulnSeverity := some "unknown" }] }] }

/-- A Trivy document whose vulnerabilities carry only in-vocabulary (or
absent) native severities. -/
def exTrivyGood : TrivyData :=
  { results := some
      [{ target := "/mnt/c/temp/x"
         vulnerabilities := some
           [{ vulnerabilityID := "CVE-0000-0002", vulnSeverity := some "high" },
            { vulnerabilityID := "CVE-0000-0003", vulnSeverity := none }] }] }

/-- `runSemgrepWithRealTime` / `runTrivyWithRealTime` in non-mock mode, as
the orchestrator's per-tool `try` block observes them: when the availability
probe fails, the orchestrator returns `[]` without dispatching the bridge;
when it succeeds, the bridge runs and its own `catch` converts every
rejection (timeout, spawn error, execution failure) into `[]` — so this path
never throws, and the real path emits no intra-tool events. -/
def runToolReal (parse : String → List Finding) (available : Bool)
    (outcome : ProcOutcome) : RunResult :=
  if available then
    match bridgeRun parse true outcome with
    | .ok fs => .ok fs []
    | .error m => .err m
  else .ok [] []

/-- Counterexample environment for claim C1: Semgrep's subprocess exceeds the
timeout (`ProcOutcome.timeout`), which the bridge's `catch` swallows into an
empty result, while Trivy succeeds with one finding. -/
def exEnvC1cex : Env :=
  { registry := []
    tempDir := "/tmp"
    cwd := "/app"
    isAbs := fun _ => true
    pathExists := fun _ => true
    dirAt := fun _ => true
    runTool := fun t =>
      if t == "Semgrep" then runToolReal (fun _ => []) true ProcOutcome.timeout
      else .ok [exFindingW] [] }

/-- Case analysis of the final accumulated `tool` string for a key: `none`
when the key never occurs, otherwise the fold of all its occurrences' tools
(starting from a pre-existing `seen` entry when there is one). -/
def mergeLookup : Option String → List String → Option String
  | some t, ts => some (ts.foldl mergeToolStr t)
  | none, [] => none
  | none, t :: ts => some (ts.foldl mergeToolStr t)

/-- The findings `dedupPass` keeps (the `filter` survivors), relative to a
pre-existing `seen` map. -/
def keptAux : List Finding → List (String × String) → List Finding
  | [], _ => []
  | f :: rest, S =>
      if (S.lookup (dedupKey f)).isSome then
        keptAux rest (updateTool S (dedupKey f) f.tool)
      else f :: keptAux rest (S ++ [(dedupKey f, f.tool)])

/-- The final `tool` string a kept finding `f` ends up with, read off from all
the occurrences of its key in `l`. -/
def finAssign (l : List Finding) (f : Finding) : Finding :=
  { f with tool :=
      ((mergeLookup none
        ((l.filter (fun g => dedupKey g == dedupKey f)).map Finding.tool)).getD
        f.tool) }

/-! ## Theorems: deduplication (claims C2, C3) -/

theorem updateTool_lookup_self (S : List (String × String)) (k t : String) :
    (updateTool S k t).lookup k = (S.lookup k).map (fun v => mergeToolStr v t) := by
  induction S with
  | nil => simp [updateTool]
  | cons hd tl ih =>
      obtain ⟨a, b⟩ := hd
      by_cases h : a = k
      · subst h
        simp [updateTool, List.lookup]
      · have hb : (k == a) = false := beq_eq_false_iff_ne.mpr (Ne.symm h)
        have hb' : (a == k) = false := beq_eq_false_iff_ne.mpr h
        simp [updateTool, List.lookup, hb, hb', ih]

theorem updateTool_lookup_ne (S : List (String × String)) (k k' t : String)
    (h : k' ≠ k) : (updateTool S k t).lookup k' = S.lookup k' := by
  induction S with
  | nil => simp [updateTool]
  | cons hd tl ih =>
      obtain ⟨a, b⟩ := hd
      by_cases ha : a = k
      · subst ha
        have hb : (k' == a) = false := beq_eq_false_iff_ne.mpr h
        simp [updateTool, List.lookup, hb]
      · have hb : (a == k) = false := beq_eq_false_iff_ne.mpr ha
        by_cases ha' : k' = a
        · subst ha'
          simp [updateTool, List.lookup, hb]
        · have hb' : (k' == a) = false := beq_eq_false_iff_ne.mpr ha'
          simp [updateTool, List.lookup, hb, hb', ih]

theorem updateTool_lookup_isSome (S : List (String × String)) (k k' t : String) :
    ((updateTool S k t).lookup k').isSome = (S.lookup k').isSome := by
  by_cases h : k' = k
  · subst h
    rw [updateTool_lookup_self]
    cases S.lookup k' <;> simp
  · rw [updateTool_lookup_ne S k k' t h]

theorem lookup_append_isSome (S : List (String × String)) (k₀ t₀ k : String) :
    ((S ++ [(k₀, t₀)]).lookup k).isSome = ((S.lookup k).isSome || (k == k₀)) := by
  induction S with
  | nil =>
      by_cases h : k = k₀
      · subst h
        simp [List.lookup]
      · have hb : (k == k₀) = false := beq_eq_false_iff_ne.mpr h
        simp [List.lookup, hb]
  | cons hd tl ih =>
      obtain ⟨a, b⟩ := hd
      by_cases h : k = a
      · subst h
        simp [List.lookup]
      · have hb : (k == a) = false := beq_eq_false_iff_ne.mpr h
        simp [List.lookup, hb, ih]

theorem lookup_append_self (S : List (String × String)) (k t : String)
    (h : S.lookup k = none) : (S ++ [(k, t)]).lookup k = some t := by
  induction S with
  | nil => simp [List.lookup]
  | cons hd tl ih =>
      obtain ⟨a, b⟩ := hd
      by_cases ha : k = a
      · subst ha
        simp [List.lookup] at h
      · have hb : (k == a) = false := beq_eq_false_iff_ne.mpr ha
        simp only [List.lookup, hb] at h ⊢
        exact ih h

theorem lookup_append_ne (S : List (String × String)) (k k' t : String)
    (h : k' ≠ k) : (S ++ [(k, t)]).lookup k' = S.lookup k' := by
  have hb : (k' == k) = false := beq_eq_false_iff_ne.mpr h
  induction S with
  | nil => simp [List.lookup, hb]
  | cons hd tl ih =>
      obtain ⟨a, b⟩ := hd
      by_cases ha : k' = a
      · subst ha
        simp [List.lookup]
      · have hb' : (k' == a) = false := beq_eq_false_iff_ne.mpr ha
        simp [List.lookup, hb', ih]

theorem mergeLookup_nil (o : Option String) : mergeLookup o [] = o := by
  cases o <;> rfl

theorem dedupPass_kept (l : List Finding) :
    ∀ (S : List (String × String)) (kept : List Finding),
    (dedupPass l S kept).2 = kept ++ keptAux l S := by
  induction l with
  | nil => intro S kept; simp [dedupPass, keptAux]
  | cons f rest ih =>
      intro S kept
      cases h : (S.lookup (dedupKey f)).isSome with
      | true => simp [dedupPass, keptAux, h, ih]
      | false => simp [dedupPass, keptAux, h, ih]

theorem dedupPass_lookup (l : List Finding) :
    ∀ (S : List (String × String)) (kept : List Finding) (k : String),
    (dedupPass l S kept).1.lookup k =
      mergeLookup (S.lookup k) ((l.filter (fun g => dedupKey g == k)).map Finding.tool) := by
  induction l with
  | nil => intro S kept k; simp [dedupPass, mergeLookup_nil]
  | cons f rest ih =>
      intro S kept k
      by_cases hk : dedupKey f = k
      · subst hk
        have hf : (dedupKey f == dedupKey f) = true := beq_self_eq_true _
        cases h : S.lookup (dedupKey f) with
        | some t₀ =>
            have hs : (S.lookup (dedupKey f)).isSome = true := by rw [h]; rfl
            have hupd : (updateTool S (dedupKey f) f.tool).lookup (dedupKey f) =
                some (mergeToolStr t₀ f.tool) := by
              rw [updateTool_lookup_self, h]; rfl
            simp only [dedupPass, hs, if_true, ih, hupd, List.filter_cons, hf,
              if_pos, List.map_cons, mergeLookup, List.foldl_cons]
        | none =>
            have hs : (S.lookup (dedupKey f)).isSome = false := by rw [h]; rfl
            have happ : (S ++ [(dedupKey f, f.tool)]).lookup (dedupKey f) =
                some f.tool := lookup_append_self S _ _ h
            simp only [dedupPass, hs, Bool.false_eq_true, if_false, ih, happ,
              List.filter_cons, hf, if_pos, List.map_cons, mergeLookup,
              List.foldl_cons]
      · have hb : (dedupKey f == k) = false := beq_eq_false_iff_ne.mpr hk
        cases h : (S.lookup (dedupKey f)).isSome with
        | true =>
            have hupd : (updateTool S (dedupKey f) f.tool).lookup k = S.lookup k :=
              updateTool_lookup_ne S _ k f.tool (Ne.symm hk)
            simp only [dedupPass, h, if_true, ih, hupd, List.filter_cons, hb,
              Bool.false_eq_true, if_false]
        | false =>
            have happ : (S ++ [(dedupKey f, f.tool)]).lookup k = S.lookup k :=
              lookup_append_ne S _ k f.tool (Ne.symm hk)
            simp only [dedupPass, h, Bool.false_eq_true, if_false, ih, happ,
              List.filter_cons, hb]

theorem keptAux_not_seen (l : List Finding) :
    ∀ (S : List (String × String)) (g : Finding), g ∈ keptAux l S →
    (S.lookup (dedupKey g)).isSome = false := by
  induction l with
  | nil => intro S g hg; simp [keptAux] at hg
  | cons f rest ih =>
      intro S g hg
      cases h : (S.lookup (dedupKey f)).isSome with
      | true =>
          rw [keptAux, if_pos h] at hg
          have := ih _ g hg
          rwa [updateTool_lookup_isSome] at this
      | false =>
          rw [keptAux, if_neg (by simp [h])] at hg
          rcases List.mem_cons.mp hg with rfl | hg'
          · exact h
          · have := ih _ g hg'
            rw [lookup_append_isSome] at this
            exact (Bool.or_eq_false_iff.mp this).1

theorem foldl_extendTool (ds : List Finding) :
    ∀ f : Finding, ds.foldl extendTool f =
      { f with tool := (ds.map Finding.tool).foldl mergeToolStr f.tool } := by
  induction ds with
  | nil => intro f; rfl
  | cons d ds ih =>
      intro f
      simp only [List.foldl_cons, List.map_cons, ih, extendTool]

theorem finAssign_cons_ne (f g : Finding) (rest : List Finding)
    (h : dedupKey g ≠ dedupKey f) : finAssign (f :: rest) g = finAssign rest g := by
  have hb : (dedupKey f == dedupKey g) = false := beq_eq_false_iff_ne.mpr (Ne.symm h)
  simp only [finAssign, List.filter_cons, hb, Bool.false_eq_true, if_false]

theorem keptAux_map_eq_go (l : List Finding) :
    ∀ (S : List (String × String)) (ks : List String),
    (∀ k, (S.lookup k).isSome = ks.contains k) →
    (keptAux l S).map (finAssign l) = dedupeSpec.dedupeSpecGo l ks := by
  induction l with
  | nil => intro S ks _; simp [keptAux, dedupeSpec.dedupeSpecGo]
  | cons f rest ih =>
      intro S ks hS
      cases h : (S.lookup (dedupKey f)).isSome with
      | true =>
          have hc : ks.contains (dedupKey f) = true := by rw [← hS, h]
          rw [keptAux, if_pos h, dedupeSpec.dedupeSpecGo, if_pos hc]
          have hcongr : (keptAux rest (updateTool S (dedupKey f) f.tool)).map
              (finAssign (f :: rest)) =
              (keptAux rest (updateTool S (dedupKey f) f.tool)).map (finAssign rest) := by
            apply List.map_congr_left
            intro g hg
            have hns := keptAux_not_seen rest _ g hg
            rw [updateTool_lookup_isSome] at hns
            have hne : dedupKey g ≠ dedupKey f := by
              intro he
              rw [he, h] at hns
              exact Bool.true_eq_false.mp hns
            exact finAssign_cons_ne f g rest hne
          rw [hcongr]
          exact ih _ ks (fun k => by rw [updateTool_lookup_isSome]; exact hS k)
      | false =>
          have hc : ks.contains (dedupKey f) = false := by rw [← hS, h]
          rw [keptAux, if_neg (by simp [h]), dedupeSpec.dedupeSpecGo,
            if_neg (by simp only [hc]; exact Bool.false_ne_true)]
          rw [List.map_cons]
          have hhead : finAssign (f :: rest) f =
              (rest.filter (fun g => dedupKey g == dedupKey f)).foldl extendTool f := by
            have hf : (dedupKey f == dedupKey f) = true := beq_self_eq_true _
            rw [foldl_extendTool]
            simp only [finAssign, List.filter_cons, hf, if_pos, List.map_cons,
              mergeLookup, Option.getD_some]
          have hcongr : (keptAux rest (S ++ [(dedupKey f, f.tool)])).map
              (finAssign (f :: rest)) =
              (keptAux rest (S ++ [(dedupKey f, f.tool)])).map (finAssign rest) := by
            apply List.map_congr_left
            intro g hg
            have hns := keptAux_not_seen rest _ g hg
            rw [lookup_append_isSome] at hns
            have hne : dedupKey g ≠ dedupKey f :=
              beq_eq_false_iff_ne.mp (Bool.or_eq_false_iff.mp hns).2
            exact finAssign_cons_ne f g rest hne
          rw [hhead, hcongr]
          congr 1
          apply ih
          intro k
          rw [lookup_append_isSome, List.contains_cons, hS k, Bool.or_comm]

theorem dedup_eq_dedupeSpec (l : List Finding) :
    deduplicateResults l = dedupeSpec l := by
  show (dedupPass l [] []).2.map
      (fun f => { f with tool := ((dedupPass l [] []).1.lookup (dedupKey f)).getD f.tool })
    = dedupeSpec l
  have hfun : (fun f : Finding =>
      ({ f with tool := ((dedupPass l [] []).1.lookup (dedupKey f)).getD f.tool } : Finding))
      = finAssign l := by
    funext f
    rw [dedupPass_lookup l [] [] (dedupKey f)]
    rfl
  rw [dedupPass_kept l [] [], hfun, List.nil_append]
  exact keptAux_map_eq_go l [] [] (fun k => rfl)

theorem dedupKey_foldl_extendTool (ds : List Finding) (f : Finding) :
    dedupKey (ds.foldl extendTool f) = dedupKey f := by
  rw [foldl_extendTool]
  rfl

theorem go_key_not_mem (l : List Finding) :
    ∀ (ks : List String) (g : Finding),
    g ∈ dedupeSpec.dedupeSpecGo l ks → dedupKey g ∉ ks := by
  induction l with
  | nil => intro ks g hg; simp [dedupeSpec.dedupeSpecGo] at hg
  | cons f rest ih =>
      intro ks g hg
      rw [dedupeSpec.dedupeSpecGo] at hg
      by_cases hc : ks.contains (dedupKey f) = true
      · rw [if_pos hc] at hg
        exact ih ks g hg
      · rw [if_neg hc] at hg
        rcases List.mem_cons.mp hg with rfl | hg'
        · rw [dedupKey_foldl_extendTool]
          intro hmem
          exact hc (List.elem_eq_true_of_mem hmem)
        · have := ih _ g hg'
          intro hmem
          exact this (List.mem_cons_of_mem _ hmem)

theorem go_pairwise (l : List Finding) :
    ∀ ks : List String,
    (dedupeSpec.dedupeSpecGo l ks).Pairwise (fun a b => dedupKey a ≠ dedupKey b) := by
  induction l with
  | nil => intro ks; simp [dedupeSpec.dedupeSpecGo]
  | cons f rest ih =>
      intro ks
      rw [dedupeSpec.dedupeSpecGo]
      by_cases hc : ks.contains (dedupKey f) = true
      · rw [if_pos hc]; exact ih ks
      · rw [if_neg hc]
        refine List.Pairwise.cons ?_ (ih _)
        intro b hb
        have := go_key_not_mem rest _ b hb
        rw [dedupKey_foldl_extendTool]
        intro he
        exact this (he ▸ List.mem_cons_self _ _)

theorem go_of_fresh (l : List Finding) :
    ∀ ks : List String,
    (∀ g ∈ l, dedupKey g ∉ ks) →
    l.Pairwise (fun a b => dedupKey a ≠ dedupKey b) →
    dedupeSpec.dedupeSpecGo l ks = l := by
  induction l with
  | nil => intro ks _ _; rfl
  | cons f rest ih =>
      intro ks hfresh hpw
      have hc : ¬ (ks.contains (dedupKey f) = true) := by
        intro hc
        exact hfresh f (List.mem_cons_self _ _) (List.mem_of_elem_eq_true hc)
      rw [dedupeSpec.dedupeSpecGo, if_neg hc]
      have hfil : rest.filter (fun g => dedupKey g == dedupKey f) = [] := by
        rw [List.filter_eq_nil_iff]
        intro g hg
        simp only [Bool.not_eq_true, beq_eq_false_iff_ne]
        exact fun he => (List.pairwise_cons.mp hpw).1 g hg he.symm
      rw [hfil]
      show f :: dedupeSpec.dedupeSpecGo rest (dedupKey f :: ks) = f :: rest
      congr 1
      apply ih
      · intro g hg
        intro hmem
        rcases List.mem_cons.mp hmem with he | hmem'
        · exact (List.pairwise_cons.mp hpw).1 g hg he.symm
        · exact hfresh g (List.mem_cons_of_mem _ hg) hmem'
      · exact (List.pairwise_cons.mp hpw).2

theorem dedupeSpec_idem (l : List Finding) :
    dedupeSpec (dedupeSpec l) = dedupeSpec l := by
  show dedupeSpec.dedupeSpecGo (dedupeSpec.dedupeSpecGo l []) [] = dedupeSpec.dedupeSpecGo l []
  exact go_of_fresh _ [] (fun g _ hmem => by simp at hmem) (go_pairwise l [])

/-- Claim C2, as stated, is false: `deduplicateResults` keys on the encoded
string `file + ":" + line + ":" + type`, which conflates the two distinct
`(file, line, category)` triples `("a", 1, "2:t")` and `("a:1", 2, "t")`
(both encode to `"a:1:2:t"`).  The claim requires both findings to be kept
as canonical records of distinct keys; the code drops the second and merges
its tool into the first. -/
theorem claim_C2_counterexample :
    deduplicateResults [exFindingA, exFindingB] ≠
      dedupeByTriple [exFindingA, exFindingB] := by
  decide

/-- Claim C2 (amended): for every input list, `deduplicateResults` keeps the
first finding with each **encoded** key `file:line:category` as the canonical
record, drops every later finding with the same encoded key while
comma-appending its tool name when not already present in the canonical
record's `tool` field, and lists the canonical records in first-seen key
order — `dedupeSpec` is exactly this description. -/
theorem claim_C2_dedup_matches_spec (l : List Finding) :
    deduplicateResults l = dedupeSpec l :=
  dedup_eq_dedupeSpec l

/-- Claim C3: the deduplication function is idempotent —
`dedupe(dedupe(L)) = dedupe(L)` for every finding list `L`. -/
theorem claim_C3_dedup_idempotent (l : List Finding) :
    deduplicateResults (deduplicateResults l) = deduplicateResults l := by
  rw [dedup_eq_dedupeSpec l, dedup_eq_dedupeSpec (dedupeSpec l), dedupeSpec_idem]

/-! ## Theorems: target resolution (claim C5) -/

/-- Claim C5, as stated, is false: for the identifier `"a/b"` — unregistered,
not absolute, not UUID-shaped — the claim's step (4) demands that the staging
root be checked first (and `/tmp/a/b` exists in `exEnvC5`), but the code's
separator branch resolves it against the working directory without consulting
the staging root, returning `/home/app/a/b` instead of `/tmp/a/b`. -/
theorem claim_C5_counterexample :
    resolveTargetPath exEnvC5 "a/b" ≠ resolveTargetPathClaim exEnvC5 "a/b" := by
  decide

/-- Claim C5 (amended): resolution follows this priority order, first match
wins — (1) a registered direct-scan id returns the registered path; (2) an
absolute path is returned as-is; (3) a UUID-shaped id is joined to the
staging root; (4) any other id **containing a path separator** is resolved
relative to the working directory without a staging-root check; (5) a
separator-free id is checked against the staging root first, then resolved
relative to the working directory, defaulting to the staging path when
neither exists. -/
theorem claim_C5_resolver_priority (env : Env) (tid : String) :
    (∀ p, env.registry.lookup tid = some p → resolveTargetPath env tid = p) ∧
    (env.registry.lookup tid = none → env.isAbs tid = true →
      resolveTargetPath env tid = tid) ∧
    (env.registry.lookup tid = none → env.isAbs tid = false → isUuid tid = true →
      resolveTargetPath env tid = pathJoin env.tempDir tid) ∧
    (env.registry.lookup tid = none → env.isAbs tid = false → isUuid tid = false →
      (strIncludes tid "/" || strIncludes tid "\\") = true →
      resolveTargetPath env tid = pathResolve env tid) ∧
    (env.registry.lookup tid = none → env.isAbs tid = false → isUuid tid = false →
      (strIncludes tid "/" || strIncludes tid "\\") = false →
      resolveTargetPath env tid =
        (if env.pathExists (pathJoin env.tempDir tid) then pathJoin env.tempDir tid
         else if env.pathExists (pathResolve env tid) then pathResolve env tid
         else pathJoin env.tempDir tid)) := by
  refine ⟨?_, ?_, ?_, ?_, ?_⟩
  · intro p hp
    simp [resolveTargetPath, hp]
  · intro hreg habs
    simp [resolveTargetPath, hreg, habs]
  · intro hreg habs huuid
    simp [resolveTargetPath, hreg, habs, huuid]
  · intro hreg habs huuid hsep
    simp [resolveTargetPath, hreg, habs, huuid, hsep]
  · intro hreg habs huuid hsep
    rw [Bool.or_eq_false_iff] at hsep
    simp [resolveTargetPath, hreg, habs, huuid, hsep.1, hsep.2]

/-- Witness for `claim_C5_resolver_priority`: the separator branch at the
concrete input `"a/b"` in `exEnvC5`. -/
theorem claim_C5_resolver_priority_witness :
    (exEnvC5.registry.lookup "a/b" = none ∧ exEnvC5.isAbs "a/b" = false ∧
      isUuid "a/b" = false ∧
      (strIncludes "a/b" "/" || strIncludes "a/b" "\\") = true) ∧
    resolveTargetPath exEnvC5 "a/b" = pathResolve exEnvC5 "a/b" :=
  ⟨⟨by decide, by decide, by decide, by decide⟩,
    (claim_C5_resolver_priority exEnvC5 "a/b").2.2.2.1
      (by decide) (by decide) (by decide) (by decide)⟩

/-! ## Theorems: the scan session loop -/

theorem scanLoop_results (env : Env) (total : Nat) :
    ∀ (ts : List String) (st : LoopState),
    (scanLoop env total ts st).results =
      st.results ++ (ts.map (toolFindings env)).flatten := by
  intro ts
  induction ts with
  | nil => intro st; simp [scanLoop]
  | cons tool rest ih =>
      intro st
      by_cases hk : tool ∈ knownTools
      · cases hr : env.runTool tool with
        | ok fs intra => simp [scanLoop, hk, hr, ih, toolFindings]
        | err m => simp [scanLoop, hk, hr, ih, toolFindings]
      · simp [scanLoop, hk, ih, toolFindings]

theorem scanLoop_notes (env : Env) (total : Nat) :
    ∀ (ts : List String) (st : LoopState),
    (scanLoop env total ts st).notes = st.notes ++ ts.map (toolNoteOf env) := by
  intro ts
  induction ts with
  | nil => intro st; simp [scanLoop]
  | cons tool rest ih =>
      intro st
      by_cases hk : tool ∈ knownTools
      · cases hr : env.runTool tool with
        | ok fs intra => simp [scanLoop, hk, hr, ih, toolNoteOf]
        | err m => simp [scanLoop, hk, hr, ih, toolNoteOf]
      · simp [scanLoop, hk, ih, toolNoteOf]

theorem scanLoop_ran (env : Env) (total : Nat) :
    ∀ (ts : List String) (st : LoopState),
    (scanLoop env total ts st).ran =
      st.ran ++ ts.filter (fun t => knownTools.contains t) := by
  intro ts
  induction ts with
  | nil => intro st; simp [scanLoop]
  | cons tool rest ih =>
      intro st
      by_cases hk : tool ∈ knownTools
      · cases hr : env.runTool tool with
        | ok fs intra => simp [scanLoop, hk, hr, ih]
        | err m => simp [scanLoop, hk, hr, ih]
      · simp [scanLoop, hk, ih]

theorem scanLoop_events (env : Env) (total : Nat) :
    ∀ (ts : List String) (st : LoopState),
    (scanLoop env total ts st).events =
      st.events ++ loopEvents env total st.completed ts := by
  intro ts
  induction ts with
  | nil => intro st; simp [scanLoop, loopEvents]
  | cons tool rest ih =>
      intro st
      by_cases hk : tool ∈ knownTools
      · cases hr : env.runTool tool with
        | ok fs intra => simp [scanLoop, loopEvents, hk, hr, ih]
        | err m => simp [scanLoop, loopEvents, hk, hr, ih]
      · simp [scanLoop, loopEvents, hk, ih]

theorem roundPct_mono (N : Nat) {a b : Nat} (h : a ≤ b) :
    roundPct a N ≤ roundPct b N :=
  Nat.div_le_div_right (by omega)

theorem roundPct_le_100 (N k : Nat) (h : k ≤ N) : roundPct k N ≤ 100 := by
  unfold roundPct
  rcases Nat.eq_zero_or_pos N with hN | hN
  · subst hN
    simp
  · apply Nat.le_of_lt_succ
    rw [Nat.div_lt_iff_lt_mul (by omega)]
    omega

theorem roundPct_self (N : Nat) (h : 1 ≤ N) : roundPct N N = 100 := by
  unfold roundPct
  have he : 200 * N + N = N + 2 * N * 100 := by ring
  rw [he, Nat.add_mul_div_left _ _ (by omega : 0 < 2 * N),
    Nat.div_eq_of_lt (by omega)]

theorem loopEvents_err_mem (env : Env) (total : Nat) :
    ∀ (ts : List String) (c : Nat) (t m : String), t ∈ ts →
    t ∈ knownTools → env.runTool t = .err m →
    ∃ p, ("Error in " ++ t ++ ": " ++ m, p) ∈ loopEvents env total c ts := by
  intro ts
  induction ts with
  | nil => intro c t m ht _ _; simp at ht
  | cons tool rest ih =>
      intro c t m ht hk herr
      rcases List.mem_cons.mp ht with rfl | ht'
      · refine ⟨roundPct c total, ?_⟩
        simp [loopEvents, hk, herr]
      · by_cases hk' : tool ∈ knownTools
        · cases hr : env.runTool tool with
          | ok fs intra =>
              obtain ⟨p, hp⟩ := ih (c + 1) t m ht' hk herr
              exact ⟨p, by simp [loopEvents, hk', hr, hp]⟩
          | err m' =>
              obtain ⟨p, hp⟩ := ih c t m ht' hk herr
              exact ⟨p, by simp [loopEvents, hk', hr, hp]⟩
        · obtain ⟨p, hp⟩ := ih (c + 1) t m ht' hk herr
          exact ⟨p, by simp [loopEvents, hk', hp]⟩

theorem loopEvents_completed_unknown_mem (env : Env) (total : Nat) :
    ∀ (ts : List String) (c : Nat) (t : String), t ∈ ts →
    t ∉ knownTools →
    ∃ p, ("Completed " ++ t ++ " scan", p) ∈ loopEvents env total c ts := by
  intro ts
  induction ts with
  | nil => intro c t ht _; simp at ht
  | cons tool rest ih =>
      intro c t ht hk
      rcases List.mem_cons.mp ht with rfl | ht'
      · refine ⟨roundPct (c + 1) total, ?_⟩
        simp [loopEvents, hk]
      · by_cases hk' : tool ∈ knownTools
        · cases hr : env.runTool tool with
          | ok fs intra =>
              obtain ⟨p, hp⟩ := ih (c + 1) t ht' hk
              exact ⟨p, by simp [loopEvents, hk', hr, hp]⟩
          | err m' =>
              obtain ⟨p, hp⟩ := ih c t ht' hk
              exact ⟨p, by simp [loopEvents, hk', hr, hp]⟩
        · obtain ⟨p, hp⟩ := ih (c + 1) t ht' hk
          exact ⟨p, by simp [loopEvents, hk', hp]⟩

theorem chain_le_cons (s : String) (p : Nat) (l : List (String × Nat))
    (hl : List.Chain' (fun a b : String × Nat => a.2 ≤ b.2) l)
    (hbd : ∀ e ∈ l, p ≤ e.2) :
    List.Chain' (fun a b : String × Nat => a.2 ≤ b.2) ((s, p) :: l) := by
  rw [List.chain'_cons']
  exact ⟨fun h hh => hbd h (List.mem_of_mem_head? hh), hl⟩

theorem loopEvents_chain (env : Env) (total : Nat)
    (hintra : ∀ t fs intra, env.runTool t = RunResult.ok fs intra → intra = []) :
    ∀ (ts : List String) (c : Nat), c + ts.length ≤ total →
    List.Chain' (fun a b : String × Nat => a.2 ≤ b.2) (loopEvents env total c ts) ∧
    ∀ e ∈ loopEvents env total c ts, roundPct c total ≤ e.2 ∧ e.2 ≤ 100 := by
  intro ts
  induction ts with
  | nil =>
      intro c _
      refine ⟨by simp [loopEvents], ?_⟩
      intro e he
      simp [loopEvents] at he
  | cons tool rest ih =>
      intro c hc
      have hlen : c + rest.length ≤ total := by simp at hc; omega
      have hlen1 : (c + 1) + rest.length ≤ total := by simp at hc; omega
      have hcN : c ≤ total := by simp at hc; omega
      have hc1N : c + 1 ≤ total := by simp at hc; omega
      by_cases hk : tool ∈ knownTools
      · cases hr : env.runTool tool with
        | ok fs intra =>
            have hi := hintra tool fs intra hr
            subst hi
            obtain ⟨hch, hbd⟩ := ih (c + 1) hlen1
            have hli : loopEvents env total c (tool :: rest) =
                ("Starting " ++ tool ++ " scan...", roundPct c total) ::
                ("Completed " ++ tool ++ " scan", roundPct (c + 1) total) ::
                loopEvents env total (c + 1) rest := by
              simp [loopEvents, hk, hr]
            rw [hli]
            constructor
            · apply chain_le_cons
              · apply chain_le_cons _ _ _ hch
                intro e he
                exact (hbd e he).1
              · intro e he
                rcases List.mem_cons.mp he with rfl | he'
                · exact roundPct_mono total (Nat.le_succ c)
                · exact le_trans (roundPct_mono total (Nat.le_succ c)) (hbd e he').1
            · intro e he
              rcases List.mem_cons.mp he with rfl | he'
              · exact ⟨le_refl _, roundPct_le_100 total c hcN⟩
              · rcases List.mem_cons.mp he' with rfl | he''
                · exact ⟨roundPct_mono total (Nat.le_succ c),
                    roundPct_le_100 total (c + 1) hc1N⟩
                · exact ⟨le_trans (roundPct_mono total (Nat.le_succ c)) (hbd e he'').1,
                    (hbd e he'').2⟩
        | err m =>
            obtain ⟨hch, hbd⟩ := ih c hlen
            have hli : loopEvents env total c (tool :: rest) =
                ("Starting " ++ tool ++ " scan...", roundPct c total) ::
                ("Error in " ++ tool ++ ": " ++ m, roundPct c total) ::
                loopEvents env total c rest := by
              simp [loopEvents, hk, hr]
            rw [hli]
            constructor
            · apply chain_le_cons
              · apply chain_le_cons _ _ _ hch
                intro e he
                exact (hbd e he).1
              · intro e he
                rcases List.mem_cons.mp he with rfl | he'
                · exact le_refl _
                · exact (hbd e he').1
            · intro e he
              rcases List.mem_cons.mp he with rfl | he'
              · exact ⟨le_refl _, roundPct_le_100 total c hcN⟩
              · rcases List.mem_cons.mp he' with rfl | he''
                · exact ⟨le_refl _, roundPct_le_100 total c hcN⟩
                · exact hbd e he''
      · obtain ⟨hch, hbd⟩ := ih (c + 1) hlen1
        have hli : loopEvents env total c (tool :: rest) =
            ("Starting " ++ tool ++ " scan...", roundPct c total) ::
            ("Completed " ++ tool ++ " scan", roundPct (c + 1) total) ::
            loopEvents env total (c + 1) rest := by
          simp [loopEvents, hk]
        rw [hli]
        constructor
        · apply chain_le_cons
          · apply chain_le_cons _ _ _ hch
            intro e he
            exact (hbd e he).1
          · intro e he
            rcases List.mem_cons.mp he with rfl | he'
            · exact roundPct_mono total (Nat.le_succ c)
            · exact le_trans (roundPct_mono total (Nat.le_succ c)) (hbd e he').1
        · intro e he
          rcases List.mem_cons.mp he with rfl | he'
          · exact ⟨le_refl _, roundPct_le_100 total c hcN⟩
          · rcases List.mem_cons.mp he' with rfl | he''
            · exact ⟨roundPct_mono total (Nat.le_succ c),
                roundPct_le_100 total (c + 1) hc1N⟩
            · exact ⟨le_trans (roundPct_mono total (Nat.le_succ c)) (hbd e he'').1,
                (hbd e he'').2⟩

theorem startScan_valid_result (env : Env) (tid : String) (tools : List String)
    (hex : env.pathExists (resolveTargetPath env tid) = true)
    (hdir : env.dirAt (resolveTargetPath env tid) = true) :
    (startScan env tid tools).result =
      .ok (deduplicateResults ((tools.map (toolFindings env)).flatten)) := by
  unfold startScan
  rw [if_neg (by simp [hex]), if_neg (by simp [hdir])]
  show Except.ok (deduplicateResults (scanLoop env tools.length tools _).results) = _
  rw [scanLoop_results]
  rfl

theorem startScan_valid_notes (env : Env) (tid : String) (tools : List String)
    (hex : env.pathExists (resolveTargetPath env tid) = true)
    (hdir : env.dirAt (resolveTargetPath env tid) = true) :
    (startScan env tid tools).toolNotes = tools.map (toolNoteOf env) := by
  unfold startScan
  rw [if_neg (by simp [hex]), if_neg (by simp [hdir])]
  show (scanLoop env tools.length tools _).notes = _
  rw [scanLoop_notes]
  rfl

theorem startScan_valid_ran (env : Env) (tid : String) (tools : List String)
    (hex : env.pathExists (resolveTargetPath env tid) = true)
    (hdir : env.dirAt (resolveTargetPath env tid) = true) :
    (startScan env tid tools).ranTools =
      tools.filter (fun t => knownTools.contains t) := by
  unfold startScan
  rw [if_neg (by simp [hex]), if_neg (by simp [hdir])]
  show (scanLoop env tools.length tools _).ran = _
  rw [scanLoop_ran]
  rfl

theorem startScan_valid_events (env : Env) (tid : String) (tools : List String)
    (hex : env.pathExists (resolveTargetPath env tid) = true)
    (hdir : env.dirAt (resolveTargetPath env tid) = true) :
    (startScan env tid tools).events =
      ("Initializing scan...", 0) ::
      ("Resolved target path: " ++ resolveTargetPath env tid, 5) ::
      (loopEvents env tools.length 0 tools ++ [("Scan completed successfully!", 100)]) := by
  unfold startScan
  rw [if_neg (by simp [hex]), if_neg (by simp [hdir])]
  show (scanLoop env tools.length tools _).events ++ _ = _
  rw [scanLoop_events]
  rfl

theorem startScan_valid_last_100 (env : Env) (tid : String) (tools : List String)
    (hex : env.pathExists (resolveTargetPath env tid) = true)
    (hdir : env.dirAt (resolveTargetPath env tid) = true) :
    ((startScan env tid tools).events.map Prod.snd).getLast? = some 100 := by
  rw [startScan_valid_events env tid tools hex hdir]
  have he : ("Initializing scan...", (0 : Nat)) ::
      ("Resolved target path: " ++ resolveTargetPath env tid, 5) ::
      (loopEvents env tools.length 0 tools ++ [("Scan completed successfully!", 100)]) =
      (("Initializing scan...", 0) ::
        ("Resolved target path: " ++ resolveTargetPath env tid, 5) ::
        loopEvents env tools.length 0 tools) ++
        [("Scan completed successfully!", 100)] := by
    simp
  rw [he]
  have he2 : List.map Prod.snd
      ((("Initializing scan...", (0 : Nat)) ::
        ("Resolved target path: " ++ resolveTargetPath env tid, 5) ::
        loopEvents env tools.length 0 tools) ++
        [("Scan completed successfully!", 100)]) =
      (0 :: 5 :: List.map Prod.snd (loopEvents env tools.length 0 tools)) ++ [100] := by
    simp
  rw [he2, List.getLast?_concat]

/-! ## Theorems: failure isolation and session status (claims C1, C4, C6, C10) -/

theorem loopEvents_completed_ok_mem (env : Env) (total : Nat) :
    ∀ (ts : List String) (c : Nat) (t : String) (fs : List Finding)
      (intra : List (String × Nat)), t ∈ ts → t ∈ knownTools →
    env.runTool t = .ok fs intra →
    ∃ p, ("Completed " ++ t ++ " scan", p) ∈ loopEvents env total c ts := by
  intro ts
  induction ts with
  | nil => intro c t fs intra ht _ _; simp at ht
  | cons tool rest ih =>
      intro c t fs intra ht hk hok
      rcases List.mem_cons.mp ht with rfl | ht'
      · refine ⟨roundPct (c + 1) total, ?_⟩
        simp [loopEvents, hk, hok]
      · by_cases hk' : tool ∈ knownTools
        · cases hr : env.runTool tool with
          | ok fs' intra' =>
              obtain ⟨p, hp⟩ := ih (c + 1) t fs intra ht' hk hok
              exact ⟨p, by simp [loopEvents, hk', hr, hp]⟩
          | err m' =>
              obtain ⟨p, hp⟩ := ih c t fs intra ht' hk hok
              exact ⟨p, by simp [loopEvents, hk', hr, hp]⟩
        · obtain ⟨p, hp⟩ := ih (c + 1) t fs intra ht' hk hok
          exact ⟨p, by simp [loopEvents, hk', hp]⟩

/-- Claim C1, as stated, is false for two of its three failure modes: when
Semgrep's subprocess **times out** (`exEnvC1cex` runs it through
`runToolReal` at `ProcOutcome.timeout`), the bridge's `catch` returns `[]`,
so the orchestrator's `try` block completes normally — the recorded notes are
`[{Semgrep, resultCount: 0}, {Trivy, resultCount: 1}]` (an ok note, no
per-tool error note for Semgrep) and the full emitted message trace contains
a "Completed Semgrep scan" event and no event describing a failure, contrary
to the claim's required error note and failure event.  (The same holds for
unavailability, where the orchestrator returns `[]` before dispatching.) -/
theorem claim_C1_counterexample :
    (startScan exEnvC1cex "/data" ["Semgrep", "Trivy"]).toolNotes =
      [ToolNote.ok "Semgrep" 0, ToolNote.ok "Trivy" 1] ∧
    (startScan exEnvC1cex "/data" ["Semgrep", "Trivy"]).events.map Prod.fst =
      ["Initializing scan...", "Resolved target path: /data",
       "Starting Semgrep scan...", "Completed Semgrep scan",
       "Starting Trivy scan...", "Completed Trivy scan",
       "Scan completed successfully!"] := by
  decide

/-- Claim C1 (amended): on a valid target, a per-tool failure never rejects
the session — it always reaches the `completed` status with the deduplicated
concatenation of the tools' contributed findings — but the failure modes
surface differently.  (a) When a known tool's dispatch **throws** into the
orchestrator's per-tool `catch`, an error note is recorded and a progress
event describing the failure is emitted, and the loop continues.  (b) A
**timeout** or **unavailability** is swallowed below the orchestrator:
`runToolReal` turns both into a successful empty run (`.ok [] []`), so the
tool contributes zero findings but receives a `{tool, resultCount: 0}` note
and a "Completed" progress event, and never a per-tool error note. -/
theorem claim_C1_failure_isolation (env : Env) (tid : String) (tools : List String)
    (t : String)
    (hex : env.pathExists (resolveTargetPath env tid) = true)
    (hdir : env.dirAt (resolveTargetPath env tid) = true)
    (ht : t ∈ tools) (hk : t ∈ knownTools) :
    (∀ m, env.runTool t = .err m →
      (startScan env tid tools).result =
        .ok (deduplicateResults ((tools.map (toolFindings env)).flatten)) ∧
      sessionStatus (startScan env tid tools).result = "completed" ∧
      ToolNote.err t m ∈ (startScan env tid tools).toolNotes ∧
      ∃ p, ("Error in " ++ t ++ ": " ++ m, p) ∈ (startScan env tid tools).events) ∧
    (∀ parse, runToolReal parse true ProcOutcome.timeout = .ok [] []) ∧
    (∀ parse outcome, runToolReal parse false outcome = .ok [] []) ∧
    (env.runTool t = .ok [] [] →
      (startScan env tid tools).result =
        .ok (deduplicateResults ((tools.map (toolFindings env)).flatten)) ∧
      sessionStatus (startScan env tid tools).result = "completed" ∧
      ToolNote.ok t 0 ∈ (startScan env tid tools).toolNotes ∧
      (∀ m, ToolNote.err t m ∉ (startScan env tid tools).toolNotes) ∧
      ∃ p, ("Completed " ++ t ++ " scan", p) ∈ (startScan env tid tools).events) := by
  refine ⟨?_, fun parse => rfl, fun parse outcome => rfl, ?_⟩
  · intro m herr
    refine ⟨startScan_valid_result env tid tools hex hdir, ?_, ?_, ?_⟩
    · rw [startScan_valid_result env tid tools hex hdir]
      rfl
    · rw [startScan_valid_notes env tid tools hex hdir]
      refine List.mem_map.mpr ⟨t, ht, ?_⟩
      simp [toolNoteOf, hk, herr]
    · rw [startScan_valid_events env tid tools hex hdir]
      obtain ⟨p, hp⟩ := loopEvents_err_mem env tools.length tools 0 t m ht hk herr
      exact ⟨p, by simp [hp]⟩
  · intro hok
    refine ⟨startScan_valid_result env tid tools hex hdir, ?_, ?_, ?_, ?_⟩
    · rw [startScan_valid_result env tid tools hex hdir]
      rfl
    · rw [startScan_valid_notes env tid tools hex hdir]
      refine List.mem_map.mpr ⟨t, ht, ?_⟩
      simp [toolNoteOf, hk, hok]
    · intro m hmem
      rw [startScan_valid_notes env tid tools hex hdir] at hmem
      obtain ⟨v, _, hveq⟩ := List.mem_map.mp hmem
      by_cases hkv : v ∈ knownTools
      · cases hr : env.runTool v with
        | ok fs intra => simp [toolNoteOf, hkv, hr] at hveq
        | err m' =>
            simp [toolNoteOf, hkv, hr] at hveq
            rw [hveq.1] at hr
            rw [hok] at hr
            cases hr
      · simp [toolNoteOf, hkv] at hveq
    · rw [startScan_valid_events env tid tools hex hdir]
      obtain ⟨p, hp⟩ :=
        loopEvents_completed_ok_mem env tools.length tools 0 t [] [] ht hk hok
      exact ⟨p, by simp [hp]⟩

/-- Witness for `claim_C1_failure_isolation`, exercising both modes: in
`exEnvC1` Semgrep's dispatch throws `"boom"` (an error note is recorded); in
`exEnvC1cex` Semgrep's subprocess times out and surfaces as `.ok [] []`
(an ok note with zero findings, and no error note). -/
theorem claim_C1_failure_isolation_witness :
    ("Semgrep" ∈ ["Semgrep", "Trivy"] ∧ "Semgrep" ∈ knownTools ∧
      exEnvC1.runTool "Semgrep" = .err "boom" ∧
      exEnvC1cex.runTool "Semgrep" = .ok [] []) ∧
    (sessionStatus (startScan exEnvC1 "/data" ["Semgrep", "Trivy"]).result =
        "completed" ∧
      ToolNote.err "Semgrep" "boom" ∈
        (startScan exEnvC1 "/data" ["Semgrep", "Trivy"]).toolNotes) ∧
    (sessionStatus (startScan exEnvC1cex "/data" ["Semgrep", "Trivy"]).result =
        "completed" ∧
      ToolNote.ok "Semgrep" 0 ∈
        (startScan exEnvC1cex "/data" ["Semgrep", "Trivy"]).toolNotes ∧
      (∀ m, ToolNote.err "Semgrep" m ∉
        (startScan exEnvC1cex "/data" ["Semgrep", "Trivy"]).toolNotes)) := by
  have Ta := claim_C1_failure_isolation exEnvC1 "/data" ["Semgrep", "Trivy"]
    "Semgrep" rfl rfl (by decide) (by decide)
  have Tb := claim_C1_failure_isolation exEnvC1cex "/data" ["Semgrep", "Trivy"]
    "Semgrep" rfl rfl (by decide) (by decide)
  have Ha := Ta.1 "boom" (by decide)
  have Hb := Tb.2.2.2 (by decide)
  exact ⟨⟨by decide, by decide, by decide, by decide⟩,
    ⟨Ha.2.1, Ha.2.2.1⟩, ⟨Hb.2.1, Hb.2.2.1, Hb.2.2.2.1⟩⟩

/-- Claim C4, as stated, is false: even for a session with one successful
tool and no intra-tool events, the emitted `progressPercent` sequence is
`[0, 5, 0, 100, 100]` — the 5% "Resolved target path" event precedes the
first per-tool event at `(0/1)·100 = 0%`, so the sequence is not
non-decreasing. -/
theorem claim_C4_counterexample :
    ¬ List.Chain' (fun a b => a ≤ b)
        ((startScan exEnvC4 "/data" ["Semgrep"]).events.map Prod.snd) := by
  intro h
  have he : (startScan exEnvC4 "/data" ["Semgrep"]).events.map Prod.snd =
      [0, 5, 0, 100, 100] := by decide
  rw [he] at h
  simp [List.chain'_cons] at h

/-- Claim C4 (amended): the final emitted `progressPercent` is exactly 100,
and — for sessions whose tool runs emit no intra-tool progress events — the
percentages are non-decreasing **from the first per-tool event onward** (the
two initialisation events at 0% and 5% precede a first per-tool value of 0%,
so the full sequence is not non-decreasing, and intra-tool mock events can
also regress). -/
theorem claim_C4_progress_after_init (env : Env) (tid : String) (tools : List String)
    (hex : env.pathExists (resolveTargetPath env tid) = true)
    (hdir : env.dirAt (resolveTargetPath env tid) = true)
    (hintra : ∀ t fs intra, env.runTool t = RunResult.ok fs intra → intra = []) :
    List.Chain' (fun a b : String × Nat => a.2 ≤ b.2)
      ((startScan env tid tools).events.drop 2) ∧
    ((startScan env tid tools).events.map Prod.snd).getLast? = some 100 := by
  refine ⟨?_, startScan_valid_last_100 env tid tools hex hdir⟩
  rw [startScan_valid_events env tid tools hex hdir]
  show List.Chain' (fun a b : String × Nat => a.2 ≤ b.2)
    (loopEvents env tools.length 0 tools ++ [("Scan completed successfully!", 100)])
  obtain ⟨hch, hbd⟩ := loopEvents_chain env tools.length hintra tools 0 (by simp)
  rw [List.chain'_append]
  refine ⟨hch, by simp, ?_⟩
  intro x hx y hy
  have hx' : x ∈ loopEvents env tools.length 0 tools := List.mem_of_mem_getLast? hx
  have hy' : y = ("Scan completed successfully!", 100) := by
    simp at hy
    exact hy.symm
  rw [hy']
  exact (hbd x hx').2

/-- Witness for `claim_C4_progress_after_init`: one successful
intra-event-free tool run. -/
theorem claim_C4_progress_after_init_witness :
    (∀ t fs intra, exEnvC4.runTool t = RunResult.ok fs intra → intra = []) ∧
    ((startScan exEnvC4 "/data" ["Semgrep"]).events.map Prod.snd).getLast? =
      some 100 := by
  have hintra : ∀ t fs intra, exEnvC4.runTool t = RunResult.ok fs intra → intra = [] := by
    intro t fs intra h
    cases h
    rfl
  exact ⟨hintra,
    (claim_C4_progress_after_init exEnvC4 "/data" ["Semgrep"] rfl rfl hintra).2⟩

/-- Claim C6: the scan succeeds only when the resolved target path exists and
is a directory; otherwise `startScan` throws `InvalidTarget` before any tool
is dispatched (no tool runs, no tool notes), and the route marks the session
`failed`. -/
theorem claim_C6_invalid_target (env : Env) (tid : String) (tools : List String) :
    (¬(env.pathExists (resolveTargetPath env tid) = true ∧
        env.dirAt (resolveTargetPath env tid) = true) →
      (∃ m, (startScan env tid tools).result = .error (.invalidTarget m)) ∧
      sessionStatus (startScan env tid tools).result = "failed" ∧
      (startScan env tid tools).ranTools = [] ∧
      (startScan env tid tools).toolNotes = []) ∧
    ((env.pathExists (resolveTargetPath env tid) = true ∧
        env.dirAt (resolveTargetPath env tid) = true) →
      ∃ r, (startScan env tid tools).result = .ok r) := by
  constructor
  · intro h
    cases hex : env.pathExists (resolveTargetPath env tid) with
    | false =>
        unfold startScan
        rw [if_pos hex]
        exact ⟨⟨_, rfl⟩, rfl, rfl, rfl⟩
    | true =>
        cases hdir : env.dirAt (resolveTargetPath env tid) with
        | false =>
            unfold startScan
            rw [if_neg (by simp [hex]), if_pos hdir]
            exact ⟨⟨_, rfl⟩, rfl, rfl, rfl⟩
        | true => exact absurd ⟨hex, hdir⟩ h
  · intro hok
    exact ⟨_, startScan_valid_result env tid tools hok.1 hok.2⟩

/-- Witness for `claim_C6_invalid_target`: the spec's scenario D — the
identifier `"not-a-uuid-and-not-absolute"` with no matching staged or local
directory. -/
theorem claim_C6_invalid_target_witness :
    (¬(exEnvC6.pathExists (resolveTargetPath exEnvC6 "not-a-uuid-and-not-absolute") = true ∧
        exEnvC6.dirAt (resolveTargetPath exEnvC6 "not-a-uuid-and-not-absolute") = true)) ∧
    sessionStatus (startScan exEnvC6 "not-a-uuid-and-not-absolute" ["Semgrep"]).result =
      "failed" ∧
    (startScan exEnvC6 "not-a-uuid-and-not-absolute" ["Semgrep"]).ranTools = [] := by
  have T := (claim_C6_invalid_target exEnvC6 "not-a-uuid-and-not-absolute" ["Semgrep"]).1
    (by decide)
  exact ⟨by decide, T.2.1, T.2.2.1⟩

/-- Claim C10: a selected tool name outside {Semgrep, Trivy, OWASP Dependency
Check} is skipped without throwing: it leaves a `{tool, resultCount: 0}` note
(never an error note), contributes no findings, is never dispatched to a
bridge, still gets a "Completed" progress event (it is counted as completed,
so progress advances), the final emitted progress is 100, and the session
reaches the `completed` status. -/
theorem claim_C10_unknown_tool (env : Env) (tid : String) (tools : List String)
    (u : String)
    (hex : env.pathExists (resolveTargetPath env tid) = true)
    (hdir : env.dirAt (resolveTargetPath env tid) = true)
    (hu : u ∈ tools) (hk : u ∉ knownTools) :
    sessionStatus (startScan env tid tools).result = "completed" ∧
    toolFindings env u = [] ∧
    ToolNote.ok u 0 ∈ (startScan env tid tools).toolNotes ∧
    (∀ m, ToolNote.err u m ∉ (startScan env tid tools).toolNotes) ∧
    (∃ p, ("Completed " ++ u ++ " scan", p) ∈ (startScan env tid tools).events) ∧
    ((startScan env tid tools).events.map Prod.snd).getLast? = some 100 ∧
    u ∉ (startScan env tid tools).ranTools := by
  refine ⟨?_, ?_, ?_, ?_, ?_,
    startScan_valid_last_100 env tid tools hex hdir, ?_⟩
  · rw [startScan_valid_result env tid tools hex hdir]
    rfl
  · simp [toolFindings, hk]
  · rw [startScan_valid_notes env tid tools hex hdir]
    refine List.mem_map.mpr ⟨u, hu, ?_⟩
    simp [toolNoteOf, hk]
  · intro m hmem
    rw [startScan_valid_notes env tid tools hex hdir] at hmem
    obtain ⟨v, hv, hveq⟩ := List.mem_map.mp hmem
    by_cases hkv : v ∈ knownTools
    · cases hr : env.runTool v with
      | ok fs intra => simp [toolNoteOf, hkv, hr] at hveq
      | err m' =>
          simp [toolNoteOf, hkv, hr] at hveq
          exact hk (hveq.1 ▸ hkv)
    · simp [toolNoteOf, hkv] at hveq
  · rw [startScan_valid_events env tid tools hex hdir]
    obtain ⟨p, hp⟩ := loopEvents_completed_unknown_mem env tools.length tools 0 u hu hk
    exact ⟨p, by simp [hp]⟩
  · rw [startScan_valid_ran env tid tools hex hdir]
    intro hmem
    have := (List.mem_filter.mp hmem).2
    simp at this
    exact hk this

/-- Witness for `claim_C10_unknown_tool`: the unknown name `"FooScanner"`
selected next to Trivy. -/
theorem claim_C10_unknown_tool_witness :
    ("FooScanner" ∈ ["FooScanner", "Trivy"] ∧ "FooScanner" ∉ knownTools) ∧
    sessionStatus (startScan exEnvC10 "/data" ["FooScanner", "Trivy"]).result =
      "completed" ∧
    ToolNote.ok "FooScanner" 0 ∈
      (startScan exEnvC10 "/data" ["FooScanner", "Trivy"]).toolNotes := by
  have T := claim_C10_unknown_tool exEnvC10 "/data" ["FooScanner", "Trivy"]
    "FooScanner" rfl rfl (by decide) (by decide)
  exact ⟨⟨by decide, by decide⟩, T.1, T.2.2.1⟩

/-! ## Theorems: tool execution bridge (claims C7, C8) -/

/-- Claim C7: when the subprocess runs past the configured timeout, the
timeout handler forcibly terminates it (`process.kill('SIGTERM')`) and
rejects with the timeout error, and the surrounding bridge `catch` turns the
rejection into an empty finding list — the tool contributes zero findings to
the session. -/
theorem claim_C7_timeout_enforcement (parse : String → List Finding) :
    executeCommand ProcOutcome.timeout =
      { result := .error (.executionTimeout "Command timed out"), killed := true } ∧
    bridgeRun parse true ProcOutcome.timeout = .ok [] :=
  ⟨rfl, rfl⟩

/-- Claim C8: a normal exit with a non-zero code resolves (and its stdout is
handed to the output parser) exactly when stdout is non-empty; a non-zero
exit with empty stdout rejects with the `ExecutionFailure` message built from
the exit code and stderr. -/
theorem claim_C8_nonzero_exit (code : Int) (stdout stderr : String)
    (parse : String → List Finding) (hc : code ≠ 0) :
    ((executeCommand (.exited code stdout stderr)).result = .ok stdout ↔ stdout ≠ "") ∧
    (stdout ≠ "" →
      bridgeRun parse true (.exited code stdout stderr) = .ok (parse stdout)) ∧
    (stdout = "" →
      (executeCommand (.exited code stdout stderr)).result =
        .error (.executionFailure
          ("Command failed with code " ++ toString code ++ ": " ++ stderr))) := by
  have hcb : (code == 0) = false := beq_eq_false_iff_ne.mpr hc
  refine ⟨⟨?_, ?_⟩, ?_, ?_⟩
  · intro hok hempty
    subst hempty
    simp [executeCommand, hcb] at hok
  · intro hne
    simp [executeCommand, hcb, hne]
  · intro hne
    simp [bridgeRun, executeCommand, hcb, hne]
  · intro hempty
    subst hempty
    simp [executeCommand, hcb]

/-- Witness for `claim_C8_nonzero_exit`: exit code 1 with non-empty stdout is
treated as success. -/
theorem claim_C8_nonzero_exit_witness :
    ((1 : Int) ≠ 0) ∧
    ((executeCommand (.exited 1 "out" "")).result = .ok "out" ↔ "out" ≠ "") :=
  ⟨by decide, (claim_C8_nonzero_exit 1 "out" "" (fun _ => []) (by decide)).1⟩

/-! ## Theorems: severity normalisation (claim C9) -/

theorem severityTable_canonical (u : String) :
    severityTable u ∈ canonicalSeverities := by
  unfold severityTable
  repeat' split
  all_goals decide

theorem mapSemgrepSeverity_canonical (s : String) :
    mapSemgrepSeverity s ∈ canonicalSeverities :=
  severityTable_canonical (strToUpper s)

theorem trivySeverity_canonical_of_ok (v : TrivyVuln) (h : trivySevOkB v = true) :
    trivySeverity v.vulnSeverity ∈ canonicalSeverities := by
  cases hs : v.vulnSeverity with
  | none => simp [trivySeverity, canonicalSeverities]
  | some s =>
      rw [trivySevOkB, hs] at h
      rw [trivySeverity]
      by_cases he : strToUpper s = ""
      · simp [he, canonicalSeverities]
      · rw [if_neg he]
        rcases Bool.or_eq_true_iff.mp h with h' | h'
        · exact absurd (by simpa using h') he
        · simpa using h'

/-- Claim C9, as stated, is false: `parseTrivyOutput` only uppercases the
native severity (`vuln.Severity?.toUpperCase() || 'INFO'`) without clamping
it to the canonical set, so a raw Trivy record with native severity
`"unknown"` produces a Finding with severity `"UNKNOWN"`, which is not one of
CRITICAL/HIGH/MEDIUM/LOW/INFO. -/
theorem claim_C9_counterexample :
    ¬ (∀ f ∈ parseTrivyOutput (some exTrivyUnknown),
        f.severity ∈ canonicalSeverities) := by
  decide

/-- Claim C9 (amended): every Finding produced by the Semgrep parser carries
a canonical severity, for every raw record (absent and out-of-vocabulary
native severities included); a Finding produced by the Trivy parser carries a
canonical severity provided each raw vulnerability's native severity is
absent, empty, or uppercases to one of the five canonical names — an
out-of-vocabulary Trivy severity passes through uppercased and unclamped. -/
theorem claim_C9_canonical_severities :
    (∀ data, ∀ f ∈ parseSemgrepOutput data, f.severity ∈ canonicalSeverities) ∧
    (∀ data, (∀ t ∈ trivyTargets data, ∀ v ∈ t.vulnerabilities.getD [],
        trivySevOkB v = true) →
      ∀ f ∈ parseTrivyOutput data, f.severity ∈ canonicalSeverities) := by
  constructor
  · intro data f hf
    cases data with
    | none => simp [parseSemgrepOutput] at hf
    | some d =>
        cases hr : d.results with
        | none => simp [parseSemgrepOutput, hr] at hf
        | some rs =>
            simp only [parseSemgrepOutput, hr, List.mem_map] at hf
            obtain ⟨r, _, heq⟩ := hf
            rw [← heq]
            exact mapSemgrepSeverity_canonical _
  · intro data hok f hf
    cases data with
    | none => simp [parseTrivyOutput] at hf
    | some d =>
        cases hr : d.results with
        | none => simp [parseTrivyOutput, hr] at hf
        | some ts =>
            simp only [parseTrivyOutput, hr, List.mem_flatten, List.mem_map] at hf
            obtain ⟨l, ⟨t, htm, hleq⟩, hfl⟩ := hf
            have htr : t ∈ trivyTargets (some d) := by
              simp [trivyTargets, hr, htm]
            cases hv : t.vulnerabilities with
            | none =>
                rw [← hleq, hv] at hfl
                simp at hfl
            | some vs =>
                rw [← hleq, hv] at hfl
                simp only [List.mem_map] at hfl
                obtain ⟨v, hvm, heq⟩ := hfl
                rw [← heq]
                exact trivySeverity_canonical_of_ok v
                  (hok t htr v (by rw [hv]; simpa using hvm))

/-- Witness for `claim_C9_canonical_severities`: a Trivy document with only
in-vocabulary native severities yields only canonical finding severities. -/
theorem claim_C9_canonical_severities_witness :
    (∀ t ∈ trivyTargets (some exTrivyGood), ∀ v ∈ t.vulnerabilities.getD [],
      trivySevOkB v = true) ∧
    (∀ f ∈ parseTrivyOutput (some exTrivyGood),
      f.severity ∈ canonicalSeverities) :=
  ⟨by decide, claim_C9_canonical_severities.2 (some exTrivyGood) (by decide)⟩
